import Mathlib

/-!
Verification of the Rush Roulette game server (`server.js` and
`src/security/rateLimit.js`) against its natural-language specification.

The JavaScript source is shallowly embedded: JS `Map`s become association
lists, `Date.now()` becomes an explicit `now : ℕ` field threaded through the
state, JS numbers used for scores become exact rationals/integers, and each
socket event handler becomes a pure state-transition function.  Timers
(`setTimeout` / `setInterval`) are modelled by explicit "armed timer"
counters together with separate fire-transitions.
-/

set_option maxHeartbeats 1000000

/-! ## Game constants (server.js lines 40-48) -/

def ROUND_DURATION : ℕ := 60000

def MAX_PLAYERS : ℕ := 8

def MIN_PLAYERS : ℕ := 2

def ROUNDS_PER_GAME : ℕ := 3

def PLAYER_TIMEOUT : ℕ := 30000

def MAX_INACTIVE_TIME : ℕ := 600000

/-! ## Association lists modelling JS `Map` (get / set / delete) -/

def alistGet {α : Type} (k : String) : List (String × α) → Option α
  | [] => none
  | (k', v) :: rest => if k' = k then some v else alistGet k rest

def alistSet {α : Type} (k : String) (v : α) : List (String × α) → List (String × α)
  | [] => [(k, v)]
  | (k', v') :: rest => if k' = k then (k, v) :: rest else (k', v') :: alistSet k v rest

def alistDelete {α : Type} (k : String) : List (String × α) → List (String × α)
  | [] => []
  | (k', v') :: rest => if k' = k then alistDelete k rest else (k', v') :: alistDelete k rest

/-! ## Data model: Player, Room, ServerState (server.js lines 50-54, 157-164, 337-350) -/

structure Player where
  id : String
  name : String
  score : ℤ
  streak : ℕ
  roundScores : List ℤ
  lastActivity : ℕ
  deriving Repr, DecidableEq

structure Room where
  id : String
  players : List Player
  currentRound : ℕ
  isActive : Bool
  roundStartTime : Option ℕ
  targetItem : Option String
  roundTimer : Option ℕ
  lastActivity : ℕ
  deriving Repr, DecidableEq

/-- A session-recovery record: `disconnectedPlayers.set(socket.id, {roomId,
playerData, timestamp})` from the disconnect handler of the companion server
revision (src/unnamed/part_000 lines 217-221). -/
structure DiscRecord where
  roomId : String
  playerData : Player
  timestamp : ℕ
  deriving Repr, DecidableEq

structure ServerState where
  gameRooms : List (String × Room)
  playerRooms : List (String × String)
  disconnectedPlayers : List (String × DiscRecord)
  submissionLocks : List String
  now : ℕ
  deriving Repr, DecidableEq

/-! ## ScoringEngine (server.js lines 490-506 `calculateScore`, line 285 time bonus) -/

/-- `Math.max` over ℚ, written as its defining conditional so that concrete
instances evaluate inside the kernel. -/
def jsMax (a b : ℚ) : ℚ := if a ≤ b then b else a

/-- `Math.min` over ℚ, written as its defining conditional. -/
def jsMin (a b : ℚ) : ℚ := if a ≤ b then a else b

/-- `Math.max(0, 1 - (timeElapsed / ROUND_DURATION))` (server.js line 285),
over exact rationals. -/
def timeBonusOf (timeElapsed duration : ℚ) : ℚ :=
  jsMax 0 (1 - timeElapsed / duration)

/-- `calculateScore(timeBonus, round, streak)` (server.js lines 490-506),
with JS float arithmetic modelled over exact rationals and `Math.floor`
as the integer floor. -/
def calculateScore (timeBonus : ℚ) (round : ℕ) (streak : ℕ) : ℤ :=
  let s1 : ℚ := 100 + ((⌊(50 : ℚ) * timeBonus⌋ : ℤ) : ℚ)
  let s2 : ℚ := s1 * (1 + ((round : ℚ) - 1) * (1 / 2))
  let s3 : ℚ := if 0 < streak then s2 * (1 + jsMin ((streak : ℚ) * (1 / 10)) (1 / 2)) else s2
  ⌊s3⌋

/-- The spec's reference formula (spec.md §4.3), written from its words:
`base = 100`; `timeBonus = floor(50 * max(0, 1 - timeElapsedMs/roundDurationMs))`;
`roundMultiplier = 1 + (roundNumber-1)*0.5`; `streakMultiplier =
1 + min(currentStreak*0.1, 0.5)` applied only when `currentStreak > 0`;
result = `floor((base+timeBonus) * roundMultiplier * streakMultiplier)`. -/
def scoreSpecFormula (timeElapsedMs roundDurationMs : ℚ) (roundNumber streak : ℕ) : ℤ :=
  let base : ℚ := 100
  let timeBonus : ℚ := ((⌊(50 : ℚ) * max 0 (1 - timeElapsedMs / roundDurationMs)⌋ : ℤ) : ℚ)
  let roundMultiplier : ℚ := 1 + ((roundNumber : ℚ) - 1) * (1 / 2)
  let streakMultiplier : ℚ := if 0 < streak then 1 + min ((streak : ℚ) * (1 / 10)) (1 / 2) else 1
  ⌊(base + timeBonus) * roundMultiplier * streakMultiplier⌋

/-! ## Submission handling (server.js lines 252-317 `submitItem` handler) -/

structure SubmitData where
  prediction : String
  confidence : ℚ
  deriving Repr, DecidableEq

inductive SubmitOutcome where
  | noRoom
  | notActive
  | unknownPlayer
  | lockedError
  | invalidData
  | scored (s : ℤ)
  deriving Repr, DecidableEq

def SubmitOutcome.isScored : SubmitOutcome → Bool
  | .scored _ => true
  | _ => false

/-- The per-(room, player) lock key `` `${roomId}:${socket.id}` `` (line 265). -/
def lockKeyOf (roomId sid : String) : String := roomId ++ ":" ++ sid

/-- JS sparse-array write `arr[i] = v` (line 291); holes read back as 0
(`roundScores[r-1] || 0`, line 433). -/
def setIdxPad : List ℤ → ℕ → ℤ → List ℤ
  | l, 0, v => v :: l.drop 1
  | l, n + 1, v => l.headD 0 :: setIdxPad (l.drop 1) n v

/-- Replace the first list element satisfying `p` (JS mutates the object
returned by `Array.prototype.find` in place). -/
def updateFirst {α : Type} (p : α → Bool) (f : α → α) : List α → List α
  | [] => []
  | x :: xs => if p x then f x :: xs else x :: updateFirst p f xs

/-- The `submitItem` socket handler (server.js lines 252-317).  Truthiness of
`data.prediction` / `data.confidence` is `≠ ""` / `≠ 0`; `data` itself absent
is `none`.  The 1-second timed lock release (lines 306-308) is the separate
transition `releaseSubmissionLock`. -/
def submitItem (st : ServerState) (sid : String) (data : Option SubmitData) :
    SubmitOutcome × ServerState :=
  match alistGet sid st.playerRooms with
  | none => (.noRoom, st)
  | some roomId =>
    match alistGet roomId st.gameRooms with
    | none => (.notActive, st)
    | some room =>
      if room.isActive = false then (.notActive, st)
      else
        match room.players.find? (fun p => p.id == sid) with
        | none => (.unknownPlayer, st)
        | some player =>
          let lockKey := lockKeyOf roomId sid
          if lockKey ∈ st.submissionLocks then (.lockedError, st)
          else
            let locks1 := lockKey :: st.submissionLocks
            match data with
            | none => (.invalidData, { st with submissionLocks := locks1.erase lockKey })
            | some d =>
              if d.prediction = "" ∨ d.confidence = 0 then
                (.invalidData, { st with submissionLocks := locks1.erase lockKey })
              else
                let timeElapsed := st.now - room.roundStartTime.getD 0
                let timeBonus := timeBonusOf (timeElapsed : ℚ) (ROUND_DURATION : ℚ)
                let score := calculateScore timeBonus room.currentRound player.streak
                let player' : Player := { player with
                  score := player.score + score
                  streak := player.streak + 1
                  roundScores := setIdxPad player.roundScores (room.currentRound - 1) score
                  lastActivity := st.now }
                let room' : Room := { room with
                  players := updateFirst (fun p => p.id == sid) (fun _ => player') room.players
                  lastActivity := st.now }
                (.scored score,
                 { st with gameRooms := alistSet roomId room' st.gameRooms,
                           submissionLocks := locks1 })

/-- The timed lock release `submissionLocks.delete(lockKey)` (lines 306-308). -/
def releaseSubmissionLock (st : ServerState) (key : String) : ServerState :=
  { st with submissionLocks := st.submissionLocks.erase key }

/-- A burst of submissions from one player, each tagged with its arrival
clock, with no lock release in between (i.e. all arriving while any prior
submission is still being processed / within its lock window). -/
def runSubmits (sid : String) :
    ServerState → List (Option SubmitData × ℕ) → List SubmitOutcome × ServerState
  | st, [] => ([], st)
  | st, (d, t) :: rest =>
    let r := submitItem { st with now := t } sid d
    let rs := runSubmits sid r.2 rest
    (r.1 :: rs.1, rs.2)

/-- Concrete data for the C4 counterexample: an active room searching for
"tennis ball", one player, and a submission whose prediction does not match
the target and whose confidence 0.001 is far below the client's 0.4 floor. -/
def playerC4 : Player :=
  { id := "s1", name := "Alice", score := 0, streak := 0, roundScores := [], lastActivity := 0 }

def roomC4 : Room :=
  { id := "room_1", players := [playerC4], currentRound := 1, isActive := true,
    roundStartTime := some 0, targetItem := some "tennis ball", roundTimer := some 1,
    lastActivity := 0 }

def stC4 : ServerState :=
  { gameRooms := [("room_1", roomC4)], playerRooms := [("s1", "room_1")],
    disconnectedPlayers := [], submissionLocks := [], now := 0 }

def dataC4 : SubmitData := { prediction := "banana", confidence := 1 / 1000 }

/-- `stC4` with the (room, player) submission lock already held, for
exercising the in-flight rejection branch. -/
def stC1 : ServerState :=
  { stC4 with submissionLocks := [lockKeyOf "room_1" "s1"] }

def submitC4 : SubmitOutcome × ServerState := submitItem stC4 "s1" (some dataC4)

/-! ## Session recovery (server.js lines 198-249 `attemptRejoin`, 57-74 cleanup) -/

structure RejoinGameState where
  round : ℕ
  targetItem : Option String
  timeRemaining : ℤ
  players : List Player
  deriving Repr, DecidableEq

structure RejoinResult where
  success : Bool
  gameState : Option RejoinGameState
  deriving Repr, DecidableEq

/-- The `attemptRejoin` socket handler (server.js lines 198-249): look up the
recovery record for the prior connection id, require the room to exist and be
active, replace the stale player entry in place (or append if it was already
removed) under the new connection id, and delete the consumed record.  Note
the handler never compares `st.now` with the record's `timestamp`. -/
def attemptRejoin (st : ServerState) (sid priorId : String) : RejoinResult × ServerState :=
  match alistGet priorId st.disconnectedPlayers with
  | none => ({ success := false, gameState := none }, st)
  | some dd =>
    match alistGet dd.roomId st.gameRooms with
    | none => ({ success := false, gameState := none }, st)
    | some room =>
      if room.isActive = false then ({ success := false, gameState := none }, st)
      else
        let restored : Player := { dd.playerData with id := sid }
        let players1 :=
          match room.players.findIdx? (fun p => p.id == priorId) with
          | some i => room.players.set i restored
          | none => room.players ++ [restored]
        let room1 : Room := { room with players := players1 }
        let timeRemaining : ℤ :=
          match room.roundTimer with
          | some _ => (ROUND_DURATION : ℤ) - ((st.now : ℤ) - (room.roundStartTime.getD 0 : ℤ))
          | none => 0
        ({ success := true,
           gameState := some
             { round := room.currentRound, targetItem := room.targetItem,
               timeRemaining := timeRemaining, players := players1 } },
         { st with gameRooms := alistSet dd.roomId room1 st.gameRooms,
                   playerRooms := alistSet sid dd.roomId st.playerRooms,
                   disconnectedPlayers := alistDelete priorId st.disconnectedPlayers })

/-- The periodic cleanup sweep over `disconnectedPlayers` (server.js lines
68-73): delete records with `now - timestamp > PLAYER_TIMEOUT`. -/
def cleanupDisconnectedSweep (st : ServerState) : ServerState :=
  { st with disconnectedPlayers :=
      st.disconnectedPlayers.filter (fun e => ¬(st.now - e.2.timestamp > PLAYER_TIMEOUT)) }

/-- The recovery-record store on disconnect, from the companion revision
(src/unnamed/part_000 lines 215-221): snapshot the player together with its
room id and the current clock. -/
def storeDisconnectRecord (st : ServerState) (sid roomId : String) (p : Player) : ServerState :=
  { st with disconnectedPlayers :=
      alistSet sid { roomId := roomId, playerData := p, timestamp := st.now } st.disconnectedPlayers }

/-- Concrete state for the C5 counterexample: a record stored at time 0 whose
30-second TTL has elapsed (the clock is at 31000), with its active room still
present, and no cleanup sweep having run. -/
def recC5 : DiscRecord :=
  { roomId := "room_1", playerData := playerC4, timestamp := 0 }

def stC5 : ServerState :=
  { gameRooms := [("room_1", roomC4)], playerRooms := [],
    disconnectedPlayers := [("old1", recC5)], submissionLocks := [], now := 31000 }

/-! ## endGame room reset and cleanupPlayer (server.js lines 453-488, 521-551) -/

/-- The room reset performed by `endGame` (server.js lines 472-487):
deactivate, zero the round, clear the start time, target and timer, and reset
every player's score, streak and roundScores.  The `gameEnded` broadcast is
returned separately by callers. -/
def endGameRoom (room : Room) : Room :=
  { room with
    isActive := false
    currentRound := 0
    roundStartTime := none
    targetItem := none
    roundTimer := none
    players := room.players.map (fun p => { p with score := 0, streak := 0, roundScores := [] }) }

/-- `cleanupPlayer(socketId)` (server.js lines 521-551), returning the new
state together with the list of `gameEnded` broadcast reasons emitted.  The
`rateLimiter.clearUser` call touches only the separately modelled RateLimiter
state. -/
def cleanupPlayer (st : ServerState) (sid : String) : ServerState × List String :=
  let st1 : ServerState :=
    { st with playerRooms := alistDelete sid st.playerRooms,
              disconnectedPlayers := alistDelete sid st.disconnectedPlayers }
  match alistGet sid st.playerRooms with
  | none => (st1, [])
  | some rid =>
    match alistGet rid st1.gameRooms with
    | none => (st1, [])
    | some room =>
      let players1 := room.players.filter (fun p => !(p.id == sid))
      if players1.length = 0 then
        ({ st1 with gameRooms := alistDelete rid st1.gameRooms }, [])
      else if players1.length < MIN_PLAYERS ∧ room.isActive = true then
        ({ st1 with gameRooms :=
             alistSet rid (endGameRoom { room with players := players1 }) st1.gameRooms },
         ["Not enough players"])
      else
        ({ st1 with gameRooms := alistSet rid { room with players := players1 } st1.gameRooms },
         [])

/-! ## Room creation and joining (server.js lines 337-359, 106-195, 513-518) -/

/-- The room object built by `createNewRoom` (server.js lines 339-348). -/
def freshRoom (rid : String) (now : ℕ) : Room :=
  { id := rid, players := [], currentRound := 0, isActive := false,
    roundStartTime := none, targetItem := none, roundTimer := none, lastActivity := now }

/-- `createNewRoom()` (server.js lines 337-350): the id is
`'room_' + Date.now()` and `gameRooms.set` silently overwrites any existing
entry under the same key. -/
def createNewRoom (st : ServerState) : String × ServerState :=
  let roomId := "room_" ++ toString st.now
  (roomId, { st with gameRooms := alistSet roomId (freshRoom roomId st.now) st.gameRooms })

/-- `findAvailableRoom()` (server.js lines 352-359): first room (in insertion
order) that is below capacity and not active. -/
def findAvailableRoom (rooms : List (String × Room)) : Option String :=
  (rooms.find? (fun e => decide (e.2.players.length < MAX_PLAYERS) && !e.2.isActive)).map
    (fun e => e.1)

/-- A raw `joinGame` payload name: either a JS string or any non-string value
(null, undefined, number, ...). -/
inductive JSValue where
  | str (s : String)
  | nonString
  deriving Repr, DecidableEq

/-- The character class removed by `String.prototype.trim` (space and common
control whitespace). -/
def isJSWhitespace (c : Char) : Bool :=
  c == ' ' || c == '\t' || c == '\n' || c == '\r' || c == '\x0b' || c == '\x0c'

/-- `name.trim()`: strip leading and trailing whitespace. -/
def jsTrim (s : String) : String :=
  ⟨((s.data.dropWhile isJSWhitespace).reverse.dropWhile isJSWhitespace).reverse⟩

/-- `validatePlayerName(name)` (server.js lines 514-518): falsy or non-string
input is rejected, otherwise the trimmed length must be between 2 and 20. -/
def validatePlayerName : JSValue → Bool
  | .nonString => false
  | .str s =>
    if s = "" then false
    else decide (2 ≤ (jsTrim s).length) && decide ((jsTrim s).length ≤ 20)

inductive JoinResult where
  | invalidName
  | roomFull
  | joined (rid : String)
  deriving Repr, DecidableEq

/-- The `joinGame` socket handler (server.js lines 106-195), state part: name
validation, room selection/creation, capacity check, and appending the player
with the trimmed name.  The countdown trigger at lines 182-184 only arms
timers, modelled separately in `TimerModel`; rate limiting is modelled
separately by `RateLimiter`. -/
def joinGame (st : ServerState) (sid : String) (name : JSValue) : JoinResult × ServerState :=
  if validatePlayerName name = false then (.invalidName, st)
  else
    match name with
    | .nonString => (.invalidName, st)
    | .str s =>
      let playerName := jsTrim s
      let rs :=
        match findAvailableRoom st.gameRooms with
        | some r => (r, st)
        | none => createNewRoom st
      match alistGet rs.1 rs.2.gameRooms with
      | none => (.roomFull, rs.2)
      | some room =>
        if MAX_PLAYERS ≤ room.players.length then (.roomFull, rs.2)
        else
          let playerData : Player :=
            { id := sid, name := playerName, score := 0, streak := 0, roundScores := [],
              lastActivity := st.now }
          let room1 : Room := { room with
            players := room.players ++ [playerData]
            lastActivity := st.now }
          (.joined rs.1,
           { rs.2 with gameRooms := alistSet rs.1 room1 rs.2.gameRooms,
                       playerRooms := alistSet sid rs.1 rs.2.playerRooms })

/-- Empty registry observed at clock 5, for the room-id collision scenario. -/
def stC9 : ServerState :=
  { gameRooms := [], playerRooms := [], disconnectedPlayers := [],
    submissionLocks := [], now := 5 }

/-- A raw name of 26 characters whose trimmed form has exactly 20. -/
def longRawName : String := "   aaaaaaaaaaaaaaaaaaaa   "

/-! ## Timer lifecycle model (server.js lines 361-451)

Timers armed by `setInterval` / `setTimeout` are counted explicitly: the
countdown interval of `startGameCountdown` and the inter-round delay of
`endRound` are held only in local variables of the JS source (never stored on
the room), while the round deadline is stored in `room.roundTimer`.  Each
armed-timer population is a counter; firing consumes one. -/

namespace TimerModel

structure CRoom where
  playersCount : ℕ
  isActive : Bool
  currentRound : ℕ
  armedCountdowns : ℕ
  armedRoundTimers : ℕ
  armedInterRound : ℕ
  deriving Repr, DecidableEq

/-- `startRound` (server.js lines 398-417): arms the round-deadline timeout
stored in `room.roundTimer`. -/
def startRound (s : CRoom) : CRoom :=
  { s with armedRoundTimers := s.armedRoundTimers + 1 }

/-- `startGame` (server.js lines 379-396). -/
def startGame (s : CRoom) : CRoom :=
  if s.isActive = true then s
  else startRound { s with isActive := true, currentRound := 1 }

/-- `startGameCountdown` (server.js lines 361-377): bails out only when the
room is missing or already active, then arms a fresh 5-second countdown
interval held in the local `timer` variable. -/
def startGameCountdown (s : CRoom) : CRoom :=
  if s.isActive = true then s
  else { s with armedCountdowns := s.armedCountdowns + 1 }

/-- The join trigger (server.js lines 145-187): capacity check, player append,
and the start trigger when the minimum player count is reached while the room
is not active. -/
def joinGame (s : CRoom) : CRoom :=
  if MAX_PLAYERS ≤ s.playersCount then s
  else
    let s1 := { s with playersCount := s.playersCount + 1 }
    if MIN_PLAYERS ≤ s1.playersCount ∧ s1.isActive = false then startGameCountdown s1 else s1

/-- A countdown interval reaching zero (server.js lines 372-375): the interval
clears itself and calls `startGame`. -/
def countdownFire (s : CRoom) : CRoom :=
  if s.armedCountdowns = 0 then s
  else startGame { s with armedCountdowns := s.armedCountdowns - 1 }

/-- `endGame` (server.js lines 453-488), timer part: clears `room.roundTimer`
if armed. -/
def endGame (s : CRoom) : CRoom :=
  { s with isActive := false, currentRound := 0,
           armedRoundTimers := s.armedRoundTimers - 1 }

/-- `endRound` (server.js lines 419-451), timer part: clears the consumed
round-deadline timer, then either arms the untracked 5-second inter-round
`setTimeout` or ends the game. -/
def endRound (s : CRoom) : CRoom :=
  let s1 := { s with armedRoundTimers := s.armedRoundTimers - 1 }
  if s1.currentRound < ROUNDS_PER_GAME then
    { s1 with currentRound := s1.currentRound + 1, armedInterRound := s1.armedInterRound + 1 }
  else endGame s1

/-- The round deadline firing (server.js lines 414-416). -/
def roundDeadlineFire (s : CRoom) : CRoom :=
  if s.armedRoundTimers = 0 then s else endRound s

/-- The inter-round delay firing (server.js line 447). -/
def interRoundFire (s : CRoom) : CRoom :=
  if s.armedInterRound = 0 then s
  else startRound { s with armedInterRound := s.armedInterRound - 1 }

/-- Total number of timers armed for the room. -/
def armedTimers (s : CRoom) : ℕ :=
  s.armedCountdowns + s.armedRoundTimers + s.armedInterRound

/-- A freshly created room (server.js lines 339-348): empty and inactive. -/
def freshCRoom : CRoom := ⟨0, false, 0, 0, 0, 0⟩

end TimerModel

/-- Concrete two-player active room at the minimum player count, for the
leave semantics witness. -/
def playerC8a : Player :=
  { id := "a1", name := "Ann", score := 10, streak := 1, roundScores := [10], lastActivity := 0 }

def playerC8b : Player :=
  { id := "b1", name := "Bob", score := 0, streak := 0, roundScores := [], lastActivity := 0 }

def roomC8 : Room :=
  { id := "room_9", players := [playerC8a, playerC8b], currentRound := 2, isActive := true,
    roundStartTime := some 100, targetItem := some "fork", roundTimer := some 3,
    lastActivity := 100 }

def stC8 : ServerState :=
  { gameRooms := [("room_9", roomC8)], playerRooms := [("a1", "room_9"), ("b1", "room_9")],
    disconnectedPlayers := [], submissionLocks := [], now := 200 }

/-! ## RateLimiter (src/security/rateLimit.js) -/

/-- One configured sliding-window limit `{max, window}` (rateLimit.js lines
9-13). -/
structure RateLimit where
  max : ℕ
  window : ℕ
  deriving Repr, DecidableEq

/-- `this.limits` (rateLimit.js lines 9-13); unknown action types have no
limit and `isAllowed` lets them pass. -/
def limits : String → Option RateLimit
  | "itemSubmission" => some ⟨5, 5000⟩
  | "roomJoin" => some ⟨3, 60000⟩
  | "messageRate" => some ⟨10, 10000⟩
  | _ => none

structure RateLimiter where
  requests : List (String × List ℕ)
  deriving Repr, DecidableEq

/-- The pruning filter `now - timestamp < limit.window` (rateLimit.js line
31); as in JS, a stored timestamp later than `now` compares as inside the
window (the JS difference is negative; Nat subtraction truncates to 0). -/
def pruneW (w now : ℕ) (l : List ℕ) : List ℕ :=
  l.filter (fun t => decide (now - t < w))

/-- The per-key core of `isAllowed` (rateLimit.js lines 22-44): prune, check
against the limit, and on success record `now` — check and record happen in
the same step. -/
def allowStep (mx w : ℕ) (l : List ℕ) (now : ℕ) : Bool × List ℕ :=
  let recent := pruneW w now l
  if mx ≤ recent.length then (false, l) else (true, recent ++ [now])

/-- `RateLimiter.isAllowed(actionType, userId)` (rateLimit.js lines 22-44) at
explicit clock `now`.  On the rejection path the pruned list is *not* stored
back, exactly as in the source. -/
def RateLimiter.isAllowed (rl : RateLimiter) (actionType userId : String) (now : ℕ) :
    Bool × RateLimiter :=
  match limits actionType with
  | none => (true, rl)
  | some lim =>
    let key := userId ++ ":" ++ actionType
    let userRequests := (alistGet key rl.requests).getD []
    let recent := pruneW lim.window now userRequests
    if lim.max ≤ recent.length then (false, rl)
    else (true, ⟨alistSet key (recent ++ [now]) rl.requests⟩)

/-- The timestamps of the allowed calls of a burst against one fixed
(actionType, userId) pair, each call tagged with its clock. -/
def runIsAllowed (rl : RateLimiter) (actionType userId : String) : List ℕ → List ℕ
  | [] => []
  | t :: ts =>
    let r := rl.isAllowed actionType userId t
    (if r.1 then [t] else []) ++ runIsAllowed r.2 actionType userId ts

/-- Per-key dynamics of a burst: the timestamps of the allowed calls. -/
def runAllowed (mx w : ℕ) : List ℕ → List ℕ → List ℕ
  | _, [] => []
  | l, t :: ts =>
    let r := allowStep mx w l t
    (if r.1 then [t] else []) ++ runAllowed mx w r.2 ts

/-- Membership of a timestamp in the sliding window `[a, a + w)`. -/
def inWindow (a w t : ℕ) : Bool := decide (a ≤ t) && decide (t < a + w)

/-! ## Theorems -/

theorem jsMax_eq_max (a b : ℚ) : jsMax a b = max a b := by
  rw [jsMax, max_def]

theorem jsMin_eq_min (a b : ℚ) : jsMin a b = min a b := by
  rw [jsMin, min_def]

/-- C3: the scoring function is deterministic (it is a pure function of its
inputs), matches the spec's reference formula over exact arithmetic, and
returns 150 for (timeElapsedMs=0, duration=60000, round=1, streak=0) and
195 for (timeElapsedMs=60000, duration=60000, round=2, streak=3). -/
theorem calculateScore_matches_reference :
    calculateScore (timeBonusOf 0 60000) 1 0 = 150 ∧
    calculateScore (timeBonusOf 60000 60000) 2 3 = 195 ∧
    ∀ (t d : ℚ) (r s : ℕ),
      calculateScore (timeBonusOf t d) r s = scoreSpecFormula t d r s := by
  refine ⟨by norm_num [calculateScore, timeBonusOf, jsMax, jsMin],
    by norm_num [calculateScore, timeBonusOf, jsMax, jsMin], ?_⟩
  intro t d r s
  unfold calculateScore scoreSpecFormula timeBonusOf
  rw [jsMax_eq_max, jsMin_eq_min]
  by_cases hs : 0 < s
  · simp only [if_pos hs]
  · simp only [if_neg hs]
    ring_nf

theorem submitItem_playerRooms (st : ServerState) (sid : String) (d : Option SubmitData) :
    (submitItem st sid d).2.playerRooms = st.playerRooms := by
  unfold submitItem
  dsimp only
  repeat' split
  all_goals rfl

theorem submitItem_locks_mono (st : ServerState) (sid : String) (d : Option SubmitData)
    (k : String) (hk : k ∈ st.submissionLocks) :
    k ∈ (submitItem st sid d).2.submissionLocks := by
  unfold submitItem
  dsimp only
  repeat' split
  all_goals simp_all [List.erase_cons_head]

theorem submitItem_locked_not_scored (st : ServerState) (sid rid : String)
    (d : Option SubmitData)
    (h1 : alistGet sid st.playerRooms = some rid)
    (h5 : lockKeyOf rid sid ∈ st.submissionLocks) :
    (submitItem st sid d).1.isScored = false := by
  unfold submitItem
  rw [h1]
  dsimp only
  repeat' split
  all_goals simp_all [SubmitOutcome.isScored]

theorem submitItem_scored_lock (st st' : ServerState) (sid : String) (d : Option SubmitData)
    (s : ℤ) (h : submitItem st sid d = (.scored s, st')) :
    ∃ rid, alistGet sid st'.playerRooms = some rid ∧
      lockKeyOf rid sid ∈ st'.submissionLocks := by
  unfold submitItem at h
  dsimp only at h
  repeat' split at h
  all_goals simp only [Prod.mk.injEq] at h
  all_goals try exact SubmitOutcome.noConfusion h.1
  obtain ⟨h1, h2⟩ := h
  subst h2
  exact ⟨_, by assumption, List.mem_cons_self _ _⟩

theorem runSubmits_locked (sid rid : String) (subs : List (Option SubmitData × ℕ)) :
    ∀ (st : ServerState),
      alistGet sid st.playerRooms = some rid →
      lockKeyOf rid sid ∈ st.submissionLocks →
      ((runSubmits sid st subs).1.filter SubmitOutcome.isScored).length = 0 := by
  induction subs with
  | nil => intro st _ _; rfl
  | cons p rest ih =>
    obtain ⟨d, t⟩ := p
    intro st h1 h5
    have h1' : alistGet sid ({ st with now := t } : ServerState).playerRooms = some rid := h1
    have h5' : lockKeyOf rid sid ∈ ({ st with now := t } : ServerState).submissionLocks := h5
    have hns := submitItem_locked_not_scored { st with now := t } sid rid d h1' h5'
    have hpr := submitItem_playerRooms { st with now := t } sid d
    have hml := submitItem_locks_mono { st with now := t } sid d _ h5'
    simp only [runSubmits, List.filter_cons, hns, Bool.false_eq_true, if_false]
    exact ih _ (by rw [hpr]; exact h1') hml

/-- C1: (a) a `submitItem` event arriving for an active room and known player
while the per-(room, player) submission lock is held is rejected with the
`submission_locked` error and the state is completely unchanged (no score,
streak or roundScores mutation); (b) consequently, for any burst of duplicate
submissions from one player with no intervening lock release, at most one
submission of the burst is scored. -/
theorem submit_in_flight_rejected :
    (∀ (st : ServerState) (sid : String) (d : Option SubmitData) (rid : String)
        (room : Room) (player : Player),
        alistGet sid st.playerRooms = some rid →
        alistGet rid st.gameRooms = some room →
        room.isActive = true →
        room.players.find? (fun p => p.id == sid) = some player →
        lockKeyOf rid sid ∈ st.submissionLocks →
        submitItem st sid d = (.lockedError, st)) ∧
    (∀ (st : ServerState) (sid : String) (subs : List (Option SubmitData × ℕ)),
        ((runSubmits sid st subs).1.filter SubmitOutcome.isScored).length ≤ 1) := by
  constructor
  · intro st sid d rid room player h1 h2 h3 h4 h5
    unfold submitItem
    rw [h1]
    try dsimp only
    rw [h2]
    try dsimp only
    simp only [h3, Bool.true_eq_false, if_false]
    rw [h4]
    try dsimp only
    rw [if_pos h5]
  · intro st sid subs
    induction subs generalizing st with
    | nil => simp [runSubmits]
    | cons p rest ih =>
      obtain ⟨d, t⟩ := p
      simp only [runSubmits, List.filter_cons]
      rcases ho : (submitItem { st with now := t } sid d).1.isScored with _ | _
      · simp only [ho, Bool.false_eq_true, if_false]
        exact ih _
      · simp only [ho, if_true, List.length_cons]
        have hsc : ∃ s, (submitItem { st with now := t } sid d).1 = .scored s := by
          rcases hout : (submitItem { st with now := t } sid d).1 with _ | _ | _ | _ | _ | s
          · simp [hout, SubmitOutcome.isScored] at ho
          · simp [hout, SubmitOutcome.isScored] at ho
          · simp [hout, SubmitOutcome.isScored] at ho
          · simp [hout, SubmitOutcome.isScored] at ho
          · simp [hout, SubmitOutcome.isScored] at ho
          · exact ⟨s, rfl⟩
        obtain ⟨s, hs⟩ := hsc
        obtain ⟨rid, hrid, hlock⟩ :=
          submitItem_scored_lock { st with now := t }
            (submitItem { st with now := t } sid d).2 sid d s
            (by rw [← hs])
        rw [runSubmits_locked sid rid rest _ hrid hlock]

/-- C1 witness: in a concrete active room with the lock for ("room_1", "s1")
held, a duplicate submission is rejected with the lock error and the state is
returned unchanged. -/
theorem submit_in_flight_rejected_witness :
    submitItem stC1 "s1" (some dataC4) = (.lockedError, stC1) :=
  submit_in_flight_rejected.1 stC1 "s1" (some dataC4) "room_1" roomC4 playerC4
    rfl rfl rfl rfl (List.mem_cons_self _ _)

/-- C4 counterexample: in an active room whose round target is "tennis ball",
a submission predicting "banana" with confidence 0.001 (far below the 0.4
floor mentioned by the spec) is scored anyway: the handler awards 150 points
and increments the streak without any target-match or confidence-floor check. -/
theorem submit_scores_nonmatching_low_confidence :
    submitC4.1 = .scored 150 ∧
    roomC4.targetItem = some "tennis ball" ∧
    dataC4.prediction ≠ "tennis ball" ∧
    dataC4.confidence < 2 / 5 ∧
    (alistGet "room_1" submitC4.2.gameRooms).map
      (fun r => r.players.map (fun p => (p.score, p.streak))) = some [(150, 1)] := by
  norm_num [submitC4, submitItem, stC4, roomC4, playerC4, dataC4, alistGet, lockKeyOf,
    calculateScore, timeBonusOf, jsMax, updateFirst, setIdxPad, alistSet, ROUND_DURATION]
  simp

/-- C4 amended: the server-side submit handler performs no target-match check
and no confidence-floor check.  For an active room, known player and free
lock, any submission whose `prediction` is a non-empty string and whose
`confidence` is nonzero is scored (regardless of the room's `targetItem` and
of the confidence magnitude); a submission with missing data, empty
prediction, or zero confidence is rejected as invalid with no state change. -/
theorem submit_scores_any_truthy_claim :
    ∀ (st : ServerState) (sid rid : String) (room : Room) (player : Player)
      (d : SubmitData),
      alistGet sid st.playerRooms = some rid →
      alistGet rid st.gameRooms = some room →
      room.isActive = true →
      room.players.find? (fun p => p.id == sid) = some player →
      lockKeyOf rid sid ∉ st.submissionLocks →
      ((d.prediction ≠ "" ∧ d.confidence ≠ 0) →
        (submitItem st sid (some d)).1 =
          .scored (calculateScore
            (timeBonusOf ((st.now - room.roundStartTime.getD 0 : ℕ) : ℚ) (ROUND_DURATION : ℚ))
            room.currentRound player.streak)) ∧
      ((d.prediction = "" ∨ d.confidence = 0) →
        submitItem st sid (some d) = (.invalidData, st)) ∧
      submitItem st sid none = (.invalidData, st) := by
  intro st sid rid room player d h1 h2 h3 h4 h5
  refine ⟨?_, ?_, ?_⟩
  · intro hd
    unfold submitItem
    rw [h1]
    try dsimp only
    rw [h2]
    try dsimp only
    simp only [h3, Bool.true_eq_false, if_false]
    rw [h4]
    try dsimp only
    rw [if_neg h5]
    try dsimp only
    rw [if_neg (not_or.mpr ⟨hd.1, hd.2⟩)]
  · intro hd
    unfold submitItem
    rw [h1]
    try dsimp only
    rw [h2]
    try dsimp only
    simp only [h3, Bool.true_eq_false, if_false]
    rw [h4]
    try dsimp only
    rw [if_neg h5]
    try dsimp only
    rw [if_pos hd, List.erase_cons_head]
  · unfold submitItem
    rw [h1]
    try dsimp only
    rw [h2]
    try dsimp only
    simp only [h3, Bool.true_eq_false, if_false]
    rw [h4]
    try dsimp only
    rw [if_neg h5]
    try dsimp only
    rw [List.erase_cons_head]

/-- C4 amended witness: the concrete non-matching low-confidence submission
from `stC4` is scored via the amended theorem. -/
theorem submit_scores_any_truthy_claim_witness :
    (submitItem stC4 "s1" (some dataC4)).1 =
      .scored (calculateScore
        (timeBonusOf ((stC4.now - roomC4.roundStartTime.getD 0 : ℕ) : ℚ) (ROUND_DURATION : ℚ))
        roomC4.currentRound playerC4.streak) :=
  (submit_scores_any_truthy_claim stC4 "s1" "room_1" roomC4 playerC4 dataC4
    rfl rfl rfl rfl (List.not_mem_nil _)).1 ⟨by decide, by norm_num [dataC4]⟩

theorem alistGet_delete_self {α : Type} (k : String) (m : List (String × α)) :
    alistGet k (alistDelete k m) = none := by
  induction m with
  | nil => rfl
  | cons e rest ih =>
    obtain ⟨k', v⟩ := e
    by_cases h : k' = k
    · simp [alistDelete, h, ih]
    · simp [alistDelete, alistGet, h, ih]

theorem alistGet_set_self {α : Type} (k : String) (v : α) (m : List (String × α)) :
    alistGet k (alistSet k v m) = some v := by
  induction m with
  | nil => simp [alistSet, alistGet]
  | cons e rest ih =>
    obtain ⟨k', v'⟩ := e
    by_cases h : k' = k
    · simp [alistSet, h, alistGet]
    · simp [alistSet, alistGet, h, ih]

theorem alistGet_filter {α : Type} (p : String × α → Bool) (k : String) (v : α) :
    ∀ (m : List (String × α)), alistGet k (m.filter p) = some v → p (k, v) = true := by
  intro m
  induction m with
  | nil => intro h; simp [alistGet] at h
  | cons e rest ih =>
    intro h
    obtain ⟨k', v'⟩ := e
    by_cases hp : p (k', v')
    · rw [List.filter_cons_of_pos hp] at h
      by_cases hk : k' = k
      · subst hk
        rw [alistGet, if_pos rfl] at h
        injection h with h
        subst h
        exact hp
      · rw [alistGet, if_neg hk] at h
        exact ih h
    · rw [List.filter_cons_of_neg hp] at h
      exact ih h

theorem findIdxQ_lt_length {α : Type} (p : α → Bool) :
    ∀ (l : List α) (i : ℕ), l.findIdx? p = some i → i < l.length := by
  intro l
  induction l with
  | nil => intro i h; simp [List.findIdx?] at h
  | cons x xs ih =>
    intro i h
    rw [List.findIdx?_cons] at h
    by_cases hp : p x
    · simp only [hp, if_true] at h
      injection h with h
      subst h
      simp
    · simp only [hp, Bool.false_eq_true, if_false] at h
      rw [List.findIdx?_succ] at h
      cases i with
      | zero => simp at h
      | succ j =>
        simp only [Option.map_eq_some'] at h
        obtain ⟨k, hk, hkj⟩ := h
        have := ih k hk
        simp
        omega

theorem mem_set_self {α : Type} (l : List α) (a : α) (i : ℕ) (h : i < l.length) :
    a ∈ l.set i a := by
  have hlen : i < (l.set i a).length := by simp [h]
  have h2 : (l.set i a)[i] = a := List.getElem_set_self hlen
  have h3 := List.getElem_mem hlen
  rwa [h2] at h3

/-- C5 counterexample: a recovery record stored at time 0 is still consumed
successfully by `attemptRejoin` at time 31000, after its 30000 ms TTL has
elapsed, because the handler never checks the timestamp; only the periodic
sweep (every 5 minutes) would have removed it. -/
theorem rejoin_consumes_expired_record :
    stC5.now - recC5.timestamp > PLAYER_TIMEOUT ∧
    alistGet "old1" stC5.disconnectedPlayers = some recC5 ∧
    (attemptRejoin stC5 "s2" "old1").1.success = true := by
  refine ⟨by decide, rfl, by decide⟩

/-- C5 amended: `take` (the rejoin lookup) retrieves-and-removes atomically on
success, so after one successful rejoin any second rejoin attempt with the
same prior connection id finds no record; expiry, however, is enforced only by
the periodic sweep (which removes exactly the records older than the TTL), not
at `take` time — an expired record not yet swept is still consumable. -/
theorem rejoin_take_once_and_sweep_expired :
    (∀ (st : ServerState) (sid priorId : String) (r : RejoinResult) (st1 : ServerState),
        attemptRejoin st sid priorId = (r, st1) →
        r.success = true →
        ∀ (sid2 : String), (attemptRejoin st1 sid2 priorId).1.success = false) ∧
    (∀ (st : ServerState) (priorId : String) (rec : DiscRecord),
        alistGet priorId (cleanupDisconnectedSweep st).disconnectedPlayers = some rec →
        st.now - rec.timestamp ≤ PLAYER_TIMEOUT) := by
  constructor
  · intro st sid priorId r st1 h hr sid2
    unfold attemptRejoin at h
    dsimp only at h
    repeat' split at h
    all_goals injection h with hA hB
    all_goals subst hA hB
    all_goals first
      | exact absurd hr (by decide)
      | (unfold attemptRejoin
         dsimp only
         rw [alistGet_delete_self]
         try rfl)
  · intro st priorId rec h
    unfold cleanupDisconnectedSweep at h
    dsimp only at h
    have := alistGet_filter _ priorId rec _ h
    simp only [decide_eq_true_eq, Nat.not_lt_eq] at this
    omega

/-- C5 amended witness: consuming the concrete record of `stC5` once makes a
second rejoin attempt with the same prior id fail. -/
theorem rejoin_take_once_witness :
    (attemptRejoin (attemptRejoin stC5 "s2" "old1").2 "s3" "old1").1.success = false :=
  rejoin_take_once_and_sweep_expired.1 stC5 "s2" "old1"
    (attemptRejoin stC5 "s2" "old1").1 (attemptRejoin stC5 "s2" "old1").2 rfl (by decide) "s3"

/-- C6: a successful rejoin replaces the stale entry for the prior connection
id in place (or appends if it was already removed) with the stored snapshot
under the new connection id, and the restored player's score, streak and
roundScores are exactly those of the snapshot. -/
theorem rejoin_restores_snapshot :
    ∀ (st : ServerState) (sid priorId : String) (dd : DiscRecord) (room : Room),
      alistGet priorId st.disconnectedPlayers = some dd →
      alistGet dd.roomId st.gameRooms = some room →
      room.isActive = true →
      (attemptRejoin st sid priorId).1.success = true ∧
      ∃ room1, alistGet dd.roomId (attemptRejoin st sid priorId).2.gameRooms = some room1 ∧
        ({ dd.playerData with id := sid } : Player) ∈ room1.players ∧
        ({ dd.playerData with id := sid } : Player).score = dd.playerData.score ∧
        ({ dd.playerData with id := sid } : Player).streak = dd.playerData.streak ∧
        ({ dd.playerData with id := sid } : Player).roundScores = dd.playerData.roundScores ∧
        ((∃ i, room.players.findIdx? (fun p => p.id == priorId) = some i ∧
            room1.players = room.players.set i { dd.playerData with id := sid }) ∨
         (room.players.findIdx? (fun p => p.id == priorId) = none ∧
            room1.players = room.players ++ [{ dd.playerData with id := sid }])) := by
  intro st sid priorId dd room h1 h2 h3
  unfold attemptRejoin
  rw [h1]
  dsimp only
  rw [h2]
  dsimp only
  simp only [h3, Bool.true_eq_false, if_false]
  rcases hidx : room.players.findIdx? (fun p => p.id == priorId) with _ | i
  · rw [hidx]
    dsimp only
    exact ⟨trivial, _, alistGet_set_self _ _ _, by simp, trivial, trivial, trivial,
      Or.inr ⟨rfl, rfl⟩⟩
  · rw [hidx]
    dsimp only
    have hlt := findIdxQ_lt_length _ _ _ hidx
    exact ⟨trivial, _, alistGet_set_self _ _ _, mem_set_self _ _ _ hlt, trivial, trivial,
      trivial, Or.inl ⟨i, rfl, rfl⟩⟩

/-- C6 witness: the expired-but-unswept record of `stC5` restores the snapshot
into the active room (append case, since the stale entry has id "s1" but the
record key is "old1" with playerData id "s1"; the rejoin succeeds and the
restored entry carries the snapshot's score, streak and roundScores). -/
theorem rejoin_restores_snapshot_witness :
    (attemptRejoin stC5 "s2" "old1").1.success = true :=
  (rejoin_restores_snapshot stC5 "s2" "old1" recC5 roomC4 rfl rfl rfl).1

/-- C2 counterexample: starting from a fresh room, three successive joins
leave the room with TWO armed countdown timers: the second join (reaching the
minimum of 2 players) arms a countdown, and the third join — arriving while
that countdown is still pending and the room is not yet active — triggers
`startGameCountdown` again, which arms a second interval instead of being a
no-op; so the at-most-one-armed-timer invariant and Countdown-idempotence both
fail. -/
theorem room_two_armed_timers :
    TimerModel.armedTimers
        (TimerModel.joinGame (TimerModel.joinGame (TimerModel.joinGame
          TimerModel.freshCRoom))) = 2 ∧
    TimerModel.startGameCountdown
        (TimerModel.joinGame (TimerModel.joinGame TimerModel.freshCRoom)) ≠
      TimerModel.joinGame (TimerModel.joinGame TimerModel.freshCRoom) := by
  refine ⟨by decide, by decide⟩

/-- C2 amended: `startGameCountdown` is a no-op only when the room is already
Active (or missing); while a countdown is pending the room is not yet Active,
so a repeated start trigger arms an additional countdown interval without
cancelling the previous one — after three joins of a fresh room two timers are
armed simultaneously. -/
theorem startGameCountdown_noop_only_when_active :
    (∀ s : TimerModel.CRoom, s.isActive = true → TimerModel.startGameCountdown s = s) ∧
    TimerModel.armedTimers
        (TimerModel.joinGame (TimerModel.joinGame (TimerModel.joinGame
          TimerModel.freshCRoom))) = 2 := by
  constructor
  · intro s hs
    unfold TimerModel.startGameCountdown
    rw [if_pos hs]
  · decide

/-- C2 amended witness: on a concrete active room, `startGameCountdown` is the
identity. -/
theorem startGameCountdown_noop_witness :
    TimerModel.startGameCountdown ⟨2, true, 1, 0, 1, 0⟩ = (⟨2, true, 1, 0, 1, 0⟩ :
      TimerModel.CRoom) :=
  startGameCountdown_noop_only_when_active.1 _ rfl

theorem length_alistSet_of_mem {α : Type} (k : String) (v' : α) :
    ∀ (m : List (String × α)) (v : α), alistGet k m = some v →
      (alistSet k v' m).length = m.length := by
  intro m
  induction m with
  | nil => intro v h; simp [alistGet] at h
  | cons e rest ih =>
    intro v h
    obtain ⟨k', v0⟩ := e
    by_cases hk : k' = k
    · simp [alistSet, hk]
    · rw [alistGet, if_neg hk] at h
      simp only [alistSet, if_neg hk, List.length_cons]
      rw [ih v h]

/-- C9: room ids are `'room_' + Date.now()`, so two `createNewRoom` calls
observing the same clock millisecond return equal ids; the id maps to the
freshly created empty room (any previous room under that id is silently
overwritten), and when the id already existed the registry does not grow. -/
theorem createNewRoom_id_collision :
    (∀ (st1 st2 : ServerState), st1.now = st2.now →
        (createNewRoom st1).1 = (createNewRoom st2).1) ∧
    (∀ st : ServerState,
        alistGet ("room_" ++ toString st.now) (createNewRoom st).2.gameRooms =
          some (freshRoom ("room_" ++ toString st.now) st.now)) ∧
    (∀ (st : ServerState) (room : Room),
        alistGet ("room_" ++ toString st.now) st.gameRooms = some room →
        (createNewRoom st).2.gameRooms.length = st.gameRooms.length) := by
  refine ⟨?_, ?_, ?_⟩
  · intro st1 st2 h
    unfold createNewRoom
    dsimp only
    rw [h]
  · intro st
    exact alistGet_set_self _ _ _
  · intro st room h
    exact length_alistSet_of_mem _ _ _ _ h

/-- C9 witness: creating twice at clock 5 returns the same id both times, and
the second creation leaves the registry size unchanged (the first room is
replaced). -/
theorem createNewRoom_id_collision_witness :
    (createNewRoom stC9).1 = (createNewRoom (createNewRoom stC9).2).1 ∧
    (createNewRoom (createNewRoom stC9).2).2.gameRooms.length =
      (createNewRoom stC9).2.gameRooms.length :=
  ⟨createNewRoom_id_collision.1 stC9 (createNewRoom stC9).2 rfl,
   createNewRoom_id_collision.2.2 (createNewRoom stC9).2
     (freshRoom ("room_" ++ toString 5) 5) (by decide)⟩

/-- C10: `joinGame` accepts a name exactly when it is a string whose trimmed
length is between 2 and 20 (so a raw input longer than 20 characters is
accepted whenever its trimmed form fits); the stored player name is the
trimmed string; non-string input is rejected; and any invalid name is rejected
with no state change. -/
theorem joinGame_name_validation :
    (∀ s : String, validatePlayerName (.str s) = true ↔
        (2 ≤ (jsTrim s).length ∧ (jsTrim s).length ≤ 20)) ∧
    validatePlayerName .nonString = false ∧
    (∀ (st : ServerState) (sid : String) (v : JSValue),
        validatePlayerName v = false → joinGame st sid v = (.invalidName, st)) ∧
    (∀ (st : ServerState) (sid : String) (s : String),
        validatePlayerName (.str s) = true →
        (∃ rid room1, (joinGame st sid (.str s)).1 = .joined rid ∧
            alistGet rid (joinGame st sid (.str s)).2.gameRooms = some room1 ∧
            ∃ p ∈ room1.players, p.id = sid ∧ p.name = jsTrim s) ∨
          (joinGame st sid (.str s)).1 = .roomFull) := by
  refine ⟨?_, rfl, ?_, ?_⟩
  · intro s
    by_cases h : s = ""
    · subst h
      constructor
      · intro hv
        simp [validatePlayerName] at hv
      · intro ⟨h2, _⟩
        have : (jsTrim "").length = 0 := rfl
        omega
    · simp [validatePlayerName, h, Bool.and_eq_true, decide_eq_true_eq]
  · intro st sid v h
    unfold joinGame
    rw [if_pos h]
  · intro st sid s hv
    unfold joinGame
    rw [if_neg (by simp [hv])]
    dsimp only
    rcases hfa : findAvailableRoom st.gameRooms with _ | r
    · dsimp only [createNewRoom]
      rw [alistGet_set_self]
      dsimp only [freshRoom]
      rw [if_neg (by decide)]
      dsimp only
      exact Or.inl ⟨_, _, rfl, alistGet_set_self _ _ _,
        ⟨{ id := sid, name := jsTrim s, score := 0, streak := 0, roundScores := [],
           lastActivity := st.now }, by simp, rfl, rfl⟩⟩
    · dsimp only
      rcases hg : alistGet r st.gameRooms with _ | room
      · exact Or.inr rfl
      · dsimp only
        by_cases hfull : MAX_PLAYERS ≤ room.players.length
        · rw [if_pos hfull]
          exact Or.inr rfl
        · rw [if_neg hfull]
          dsimp only
          exact Or.inl ⟨_, _, rfl, alistGet_set_self _ _ _,
            ⟨{ id := sid, name := jsTrim s, score := 0, streak := 0, roundScores := [],
               lastActivity := st.now }, by simp, rfl, rfl⟩⟩

/-- C10 witness: the concrete raw name of 26 characters (20 after trimming) is
accepted, a two-character name joins the empty registry storing its trimmed
form, and a non-string name is rejected without state change. -/
theorem joinGame_name_validation_witness :
    validatePlayerName (.str longRawName) = true ∧
    20 < longRawName.length ∧
    joinGame stC9 "s1" .nonString = (.invalidName, stC9) ∧
    ((∃ rid room1, (joinGame stC9 "s1" (.str longRawName)).1 = .joined rid ∧
        alistGet rid (joinGame stC9 "s1" (.str longRawName)).2.gameRooms = some room1 ∧
        ∃ p ∈ room1.players, p.id = "s1" ∧ p.name = jsTrim longRawName) ∨
      (joinGame stC9 "s1" (.str longRawName)).1 = .roomFull) :=
  ⟨(joinGame_name_validation.1 longRawName).mpr (by decide),
   by decide,
   joinGame_name_validation.2.2.1 stC9 "s1" .nonString rfl,
   joinGame_name_validation.2.2.2 stC9 "s1" longRawName
     ((joinGame_name_validation.1 longRawName).mpr (by decide))⟩

/-- C8: when a player leaves, it is removed from the room's players; a room
whose player count reaches zero is destroyed; and the count dropping from
MIN_PLAYERS to below it while the room is Active produces exactly one
`gameEnded` broadcast with the insufficient-players reason (with more players
remaining, or an inactive room, it produces none). -/
theorem cleanupPlayer_leave_semantics :
    ∀ (st : ServerState) (sid rid : String) (room : Room),
      alistGet sid st.playerRooms = some rid →
      alistGet rid st.gameRooms = some room →
      (room.players.filter (fun p => p.id == sid)).length = 1 →
      (∀ room1, alistGet rid (cleanupPlayer st sid).1.gameRooms = some room1 →
         ∀ p ∈ room1.players, ¬p.id = sid) ∧
      (room.players.length = 1 →
         alistGet rid (cleanupPlayer st sid).1.gameRooms = none ∧
         (cleanupPlayer st sid).2 = []) ∧
      (room.players.length = MIN_PLAYERS → room.isActive = true →
         (cleanupPlayer st sid).2 = ["Not enough players"] ∧
         ∃ room1, alistGet rid (cleanupPlayer st sid).1.gameRooms = some room1 ∧
           room1.isActive = false) ∧
      (MIN_PLAYERS < room.players.length → (cleanupPlayer st sid).2 = []) ∧
      (room.isActive = false → (cleanupPlayer st sid).2 = []) := by
  intro st sid rid room hpr hgr hcount
  have hlen : (room.players.filter (fun p => !(p.id == sid))).length =
      room.players.length - 1 := by
    have h := List.length_eq_length_filter_add (l := room.players)
      (fun p : Player => p.id == sid)
    simp only [] at h
    rw [hcount] at h
    omega
  have hpos : 1 ≤ room.players.length := by
    have h := List.length_filter_le (fun p : Player => p.id == sid) room.players
    omega
  unfold cleanupPlayer
  rw [hpr]
  dsimp only
  rw [hgr]
  dsimp only
  refine ⟨?_, ?_, ?_, ?_, ?_⟩
  · intro room1 h1 p hp
    split at h1
    · rw [alistGet_delete_self] at h1
      exact Option.noConfusion h1
    · split at h1
      · rw [alistGet_set_self] at h1
        injection h1 with h1
        subst h1
        simp only [endGameRoom, List.mem_map] at hp
        obtain ⟨q, hq, rfl⟩ := hp
        rw [List.mem_filter] at hq
        simpa using hq.2
      · rw [alistGet_set_self] at h1
        injection h1 with h1
        subst h1
        dsimp only at hp
        rw [List.mem_filter] at hp
        simpa using hp.2
  · intro h1
    rw [if_pos (show (room.players.filter (fun p => !(p.id == sid))).length = 0 by omega)]
    exact ⟨alistGet_delete_self _ _, rfl⟩
  · intro h2 hact
    rw [if_neg (show ¬(room.players.filter (fun p => !(p.id == sid))).length = 0 by
          rw [hlen, h2]; decide),
        if_pos ⟨by rw [hlen, h2]; decide, hact⟩]
    exact ⟨rfl, _, alistGet_set_self _ _ _, rfl⟩
  · intro h3
    have h3n : 2 < room.players.length := h3
    rw [if_neg (show ¬(room.players.filter (fun p => !(p.id == sid))).length = 0 by omega),
        if_neg (by
          intro hc
          have hlt : (room.players.filter (fun p => !(p.id == sid))).length < 2 := hc.1
          omega)]
  · intro hact
    by_cases h0 : (room.players.filter (fun p => !(p.id == sid))).length = 0
    · rw [if_pos h0]
    · rw [if_neg h0, if_neg (by
        intro hc
        rw [hact] at hc
        exact Bool.noConfusion hc.2)]

/-- C8 witness: in a concrete active two-player room, one player leaving
yields exactly one `gameEnded` broadcast with the insufficient-players reason
and the room is left inactive. -/
theorem cleanupPlayer_leave_semantics_witness :
    (cleanupPlayer stC8 "a1").2 = ["Not enough players"] ∧
    ∃ room1, alistGet "room_9" (cleanupPlayer stC8 "a1").1.gameRooms = some room1 ∧
      room1.isActive = false :=
  (cleanupPlayer_leave_semantics stC8 "a1" "room_9" roomC8 rfl rfl (by decide)).2.2.1 rfl rfl

theorem runIsAllowed_eq_runAllowed (a u : String) (lim : RateLimit)
    (h : limits a = some lim) :
    ∀ (ts : List ℕ) (rl : RateLimiter),
      runIsAllowed rl a u ts =
        runAllowed lim.max lim.window ((alistGet (u ++ ":" ++ a) rl.requests).getD []) ts := by
  intro ts
  induction ts with
  | nil => intro rl; rfl
  | cons t ts ih =>
    intro rl
    unfold runIsAllowed runAllowed RateLimiter.isAllowed allowStep
    rw [h]
    dsimp only
    by_cases hc : lim.max ≤
        (pruneW lim.window t ((alistGet (u ++ ":" ++ a) rl.requests).getD [])).length
    · rw [if_pos hc, if_pos hc]
      dsimp only
      exact ih rl
    · rw [if_neg hc, if_neg hc]
      dsimp only
      congr 1
      rw [ih ⟨alistSet (u ++ ":" ++ a)
            (pruneW lim.window t ((alistGet (u ++ ":" ++ a) rl.requests).getD []) ++ [t])
            rl.requests⟩]
      simp only [alistGet_set_self, Option.getD_some]

theorem pruneW_pruneW (w m now : ℕ) (hmn : m ≤ now) (l : List ℕ) :
    pruneW w now (pruneW w m l) = pruneW w now l := by
  unfold pruneW
  rw [List.filter_filter]
  apply List.filter_congr
  intro x _
  by_cases hx : now - x < w
  · have hmx : m - x < w := lt_of_le_of_lt (Nat.sub_le_sub_right hmn x) hx
    simp [hx, hmx]
  · simp [hx]

theorem runAllowed_window_bound (mx w : ℕ) :
    ∀ (ts : List ℕ) (l A : List ℕ) (n : ℕ),
      ts.Pairwise (· ≤ ·) →
      (∀ t ∈ ts, n ≤ t) →
      (∀ p ∈ A, p ≤ n) →
      (∀ now, n ≤ now →
        (A.filter (fun p => decide (now - p < w))).length ≤ (pruneW w now l).length) →
      (∀ a, (A.filter (inWindow a w)).length ≤ mx) →
      ∀ a, ((A ++ runAllowed mx w l ts).filter (inWindow a w)).length ≤ mx := by
  intro ts
  induction ts with
  | nil =>
    intro l A n _ _ _ _ hA a
    simpa using hA a
  | cons m ts ih =>
    intro l A n hsort hfut hpast hinv hA a
    have hnm : n ≤ m := hfut m (List.mem_cons_self _ _)
    have hsort' : ts.Pairwise (· ≤ ·) := (List.pairwise_cons.mp hsort).2
    have hmle : ∀ t ∈ ts, m ≤ t := (List.pairwise_cons.mp hsort).1
    unfold runAllowed allowStep
    dsimp only
    by_cases hc : mx ≤ (pruneW w m l).length
    · rw [if_pos hc]
      dsimp only
      exact ih l A m hsort' hmle (fun p hp => le_trans (hpast p hp) hnm)
        (fun now hmn => hinv now (le_trans hnm hmn)) hA a
    · rw [if_neg hc]
      dsimp only
      show (List.filter (inWindow a w)
        (A ++ ([m] ++ runAllowed mx w (pruneW w m l ++ [m]) ts))).length ≤ mx
      rw [← List.append_assoc]
      apply ih (pruneW w m l ++ [m]) (A ++ [m]) m hsort' hmle
      · intro p hp
        rcases List.mem_append.mp hp with hpa | hpm
        · exact le_trans (hpast p hpa) hnm
        · rw [List.mem_singleton] at hpm
          exact le_of_eq hpm
      · intro now hmnow
        rw [List.filter_append, List.length_append]
        have hsplit : pruneW w now (pruneW w m l ++ [m]) =
            pruneW w now (pruneW w m l) ++ pruneW w now [m] := by
          unfold pruneW
          rw [List.filter_append]
        rw [hsplit, List.length_append, pruneW_pruneW w m now hmnow]
        have h1 := hinv now (le_trans hnm hmnow)
        have h2 : ([m].filter (fun p => decide (now - p < w))).length =
            (pruneW w now [m]).length := rfl
        omega
      · intro b
        rw [List.filter_append, List.length_append]
        by_cases hmw : inWindow b w m = true
        · have hsub : (A.filter (inWindow b w)).length ≤
              (A.filter (fun p => decide (m - p < w))).length := by
            apply List.Sublist.length_le
            apply List.monotone_filter_right
            intro p hp
            unfold inWindow at hp
            rw [Bool.and_eq_true, decide_eq_true_eq, decide_eq_true_eq] at hp
            unfold inWindow at hmw
            rw [Bool.and_eq_true, decide_eq_true_eq, decide_eq_true_eq] at hmw
            rw [decide_eq_true_eq]
            omega
          have hlt := hinv m hnm
          have hone : ([m].filter (inWindow b w)).length = 1 := by
            simp [hmw]
          omega
        · have hzero : ([m].filter (inWindow b w)).length = 0 := by
            simp only [List.filter, hmw]
            rfl
          have := hA b
          omega

/-- C7 counterexample: with timestamps that are not monotone (the system clock
jumping forward past the window and then back), `isAllowed` for the configured
"itemSubmission" limit {max 5, window 5000} returns true for nine calls whose
timestamps lie inside the single window [0, 5000) — the jump to 10000 prunes
the five stored timestamps, and the later-but-earlier-stamped calls are
readmitted. -/
theorem rateLimiter_nonmonotone_counterexample :
    limits "itemSubmission" = some ⟨5, 5000⟩ ∧
    ((runIsAllowed ⟨[]⟩ "itemSubmission" "u1"
        [0, 1, 2, 3, 4, 10000, 5, 6, 7, 8]).filter (inWindow 0 5000)).length = 9 ∧
    5 < 9 :=
  ⟨rfl, by decide, by decide⟩

/-- C7 amended: for every action type with a configured limit {max, windowMs}
and every burst of `isAllowed` calls by one subject at nondecreasing
timestamps (a clock that never runs backwards), the number of calls that
return true with timestamp inside any sliding window of length windowMs never
exceeds max; checking and recording happen in the same `isAllowed` step. -/
theorem rateLimiter_sliding_window_bound :
    ∀ (actionType userId : String) (lim : RateLimit) (ts : List ℕ),
      limits actionType = some lim →
      ts.Pairwise (· ≤ ·) →
      ∀ a, ((runIsAllowed ⟨[]⟩ actionType userId ts).filter
          (inWindow a lim.window)).length ≤ lim.max := by
  intro actionType userId lim ts h hsort a
  rw [runIsAllowed_eq_runAllowed actionType userId lim h ts ⟨[]⟩]
  have hb := runAllowed_window_bound lim.max lim.window ts [] [] 0 hsort
    (fun t _ => Nat.zero_le t) (by simp) (by
      intro now _
      simp [pruneW]) (by
      intro b
      simp) a
  simpa using hb

/-- C7 amended witness: four rapid joins (limit 3 per 60 s) at nondecreasing
clocks never exceed three allowed calls inside the window starting at 0. -/
theorem rateLimiter_sliding_window_bound_witness :
    ((runIsAllowed ⟨[]⟩ "roomJoin" "u1" [0, 1, 2, 3]).filter
        (inWindow 0 60000)).length ≤ 3 :=
  rateLimiter_sliding_window_bound "roomJoin" "u1" ⟨3, 60000⟩ [0, 1, 2, 3] rfl (by decide) 0
